import Mathlib

/-!
Shallow embedding of `scripts/api_docs_fetcher.py` (the crawl-and-extract
core of the doc-fetcher repository).

Conventions of the embedding:
* Python strings are Lean `String`s; Python lists are `List`s; Python sets
  are `List`s used up to membership (insertion adds an element only when it
  is absent, mirroring `set.add`).
* `urlparse` results are modelled by the structure `Url` (the fields the
  code reads: network location, path, query, fragment).  String equality of
  rendered URLs corresponds to structural equality of `Url` values.
* The BeautifulSoup parse of a page is modelled by the structure `Soup`
  holding exactly the query results the code reads from the external HTML
  library (title candidates in selector order, block-level nodes in
  document order, regex match lists, tables, code examples, navigation
  hrefs) together with the Python truthiness of the soup object.
* The network is a deterministic oracle `World`: for each URL, the result
  of a `requests` GET (`none` models a raised exception / non-2xx status)
  and of a Playwright render (`none` models a Playwright error).
* `time.sleep` is modelled by accumulating the slept amount (a rational)
  in the state; `delay_seconds` is a rational.
* Regex patterns from the config (`include_patterns` / `exclude_patterns`)
  are modelled by their match predicates `Url → Bool` (the denotation of
  `re.search(pattern, url, re.IGNORECASE) is not None`); a `None` or empty
  pattern list is modelled by `[]`, which is exactly the Python-falsy case.
-/

/-- Python `\w` (word character), ASCII approximation: alphanumeric or
underscore. -/
def isWordChar (c : Char) : Bool :=
  c.isAlphanum || c == '_'

/-- Membership of a character in the class `[^\w\s-]` is the complement of
this predicate: characters kept by `re.sub(r'[^\w\s-]', '', ...)`. -/
def keptBySlugFilter (c : Char) : Bool :=
  isWordChar c || c.isWhitespace || c == '-'

/-- A character matched by the class `[-\s]`. -/
def isDashOrSpace (c : Char) : Bool :=
  c == '-' || c.isWhitespace

/-- The scanner behind `re.sub(r'[-\s]+', '-', s)`: `inRun` records
whether the previous character belonged to a hyphen/whitespace run (whose
replacement hyphen has already been emitted). -/
def collapseGo (inRun : Bool) : List Char → List Char
  | [] => []
  | c :: rest =>
    if isDashOrSpace c then
      if inRun then collapseGo true rest else '-' :: collapseGo true rest
    else
      c :: collapseGo false rest

/-- Models `re.sub(r'[-\s]+', '-', s)` on a character list: every maximal run of
hyphen/whitespace characters is replaced by a single hyphen. -/
def collapseRuns (l : List Char) : List Char :=
  collapseGo false l

/-- Python `str.strip()` on a character list (ASCII whitespace
approximation). -/
def pyStrip (l : List Char) : List Char :=
  ((l.dropWhile Char.isWhitespace).reverse.dropWhile Char.isWhitespace).reverse

/-- Python `str.strip()` on strings. -/
def pyStripStr (s : String) : String :=
  ⟨pyStrip s.data⟩

/-- Models `safe_title` computation of `crawl_documentation` (lines 501-502):
`re.sub(r'[^\w\s-]', '', title).strip()` followed by
`re.sub(r'[-\s]+', '-', ...)`.  Note: the title's letter case is left
untouched by the code. -/
def slugify (title : String) : String :=
  ⟨collapseRuns (pyStrip (title.data.filter keptBySlugFilter))⟩

/-- Python format `{n:02d}`: decimal rendering left-padded with zeros to
width two. -/
def pad2 (n : Nat) : String :=
  if n < 10 then "0" ++ toString n else toString n

/-- Does `pat` match the beginning of `l`? -/
def matchesAt : List Char → List Char → Bool
  | [], _ => true
  | _ :: _, [] => false
  | p :: ps, c :: cs => p == c && matchesAt ps cs

/-- Does `needle` occur as a contiguous run inside `hay`?  (Python's
`needle in hay` on strings, over character lists.) -/
def containsSub (hay needle : List Char) : Bool :=
  match hay with
  | [] => needle.isEmpty
  | _ :: rest => matchesAt needle hay || containsSub rest needle

/-- Python `hay.__contains__(needle)` for strings. -/
def strContainsSub (hay needle : String) : Bool :=
  containsSub hay.data needle.data

/-- Python `str.replace(pat, repl)` (all occurrences, left to right), on
character lists, recursing on a fuel that bounds the input length (each
step consumes at least one input character, so `l.length` fuel always
suffices).  An empty pattern leaves the input unchanged (the code never
calls `replace` with an empty pattern). -/
def replaceFuel (pat repl : List Char) : Nat → List Char → List Char
  | _, [] => []
  | 0, l => l
  | Nat.succ n, c :: rest =>
    if pat ≠ [] ∧ matchesAt pat (c :: rest) = true then
      repl ++ replaceFuel pat repl n ((c :: rest).drop pat.length)
    else
      c :: replaceFuel pat repl n rest

/-- Python `str.replace(pat, repl)` on character lists. -/
def replaceSub (pat repl l : List Char) : List Char :=
  replaceFuel pat repl l.length l

/-- Python `str.replace` on strings. -/
def pyReplace (s pat repl : String) : String :=
  ⟨replaceSub pat.data repl.data s.data⟩

/-- Python `str.upper()` (ASCII approximation; the kernel-reducible
counterpart of `String.toUpper`). -/
def pyUpper (s : String) : String :=
  ⟨s.data.map Char.toUpper⟩

/-- Python `str.lower()` (ASCII approximation). -/
def pyLower (s : String) : String :=
  ⟨s.data.map Char.toLower⟩

/-- Python `str.title()` (ASCII approximation): the first letter of every
maximal letter run is uppercased, subsequent letters lowercased.
`prevAlpha` records whether the previous character was a letter. -/
def pyTitleCore (prevAlpha : Bool) : List Char → List Char
  | [] => []
  | c :: rest =>
    if c.isAlpha then
      (if prevAlpha then c.toLower else c.toUpper) :: pyTitleCore true rest
    else
      c :: pyTitleCore false rest

/-- Python `str.title()` on strings. -/
def pyTitle (s : String) : String :=
  ⟨pyTitleCore false s.data⟩

/-! ## URLs -/

/-- The parts of a `urlparse` result that the code reads.  `netloc` is the
network-location component; `query`/`fragment` are `none` when absent.
Rendering a `Url` back to a string is injective, so Python string equality
of URLs corresponds to structural equality here. -/
structure Url where
  netloc : String
  path : String
  query : Option String := none
  fragment : Option String := none
deriving DecidableEq, Repr

/-- The spec's normalized form of a URL: fragment and query string
stripped.  (The code itself never computes this; it is needed to state
claims about normalization.) -/
def normalizeUrl (u : Url) : Url :=
  { u with query := none, fragment := none }

/-- Models `api_name` computation of `crawl_documentation` (line 476):
`urlparse(base_url).netloc.replace('www.', '').replace('.', '_')`. -/
def apiNameOf (base : Url) : String :=
  pyReplace (pyReplace base.netloc "www." "") "." "_"

/-! ## Configuration -/

/-- Models `FetcherConfig` dataclass (lines 28-42).  `include_patterns` and
`exclude_patterns` carry the match predicates of the configured regexes;
`[]` models Python `None` as well as an empty list (both falsy, both
skipping the corresponding check).  `custom_headers` only feeds the HTTP
session and is not modelled. -/
structure FetcherConfig where
  base_urls : List Url
  output_dir : String
  max_depth : Nat := 2
  delay_seconds : ℚ := 1/2
  include_patterns : List (Url → Bool) := []
  exclude_patterns : List (Url → Bool) := []
  follow_external_links : Bool := false
  extract_code_examples : Bool := true
  extract_api_endpoints : Bool := true
  create_index : Bool := true
  use_playwright : Bool := false

/-! ## URL filter -/

/-- Models `should_fetch_url` (lines 87-109).  Decision order as in the code:
exact membership of the (unnormalized) URL in the visited set, then the
domain check, then include patterns, then exclude patterns. -/
def should_fetch_url (cfg : FetcherConfig) (visited : List Url) (url : Url) : Bool :=
  if url ∈ visited then
    false
  else if !cfg.follow_external_links
      && !((cfg.base_urls.map Url.netloc).contains url.netloc) then
    false
  else if !cfg.include_patterns.isEmpty
      && !(cfg.include_patterns.any fun p => p url) then
    false
  else if !cfg.exclude_patterns.isEmpty
      && (cfg.exclude_patterns.any fun p => p url) then
    false
  else
    true

/-! ## Parsed pages -/

/-- A block-level node seen by `extract_sections` in document order:
either a heading `h1`-`h6` (with its level and stripped text) or any other
matched element (`p`, `div`, `pre`, `table`, `ul`, `ol`) with its raw
`get_text()` result. -/
inductive SNode where
  | heading (level : Nat) (title : String)
  | block (text : String)
deriving DecidableEq, Repr

/-- A section dictionary built by `extract_sections`
(`{'level': ..., 'title': ..., 'content': [...]}`). -/
structure Section where
  level : Nat
  title : String
  content : List String
deriving DecidableEq, Repr

/-- One raw regex match produced by the `re.findall` loop of
`extract_api_endpoints` (lines 243-264).  The first endpoint pattern has
two capture groups, so `findall` yields `(method, path)` tuples for it;
the remaining three patterns have a single group each, so `findall` yields
plain strings.  (The code's `len(match) < 2` tuple branch is unreachable
for these patterns.) -/
inductive RawMatch where
  | tup (method path : String)
  | single (s : String)
deriving DecidableEq, Repr

/-- An endpoint dictionary built by `extract_api_endpoints`: either a
pattern-derived `{'method': ..., 'path': ..., 'type': 'endpoint'}` or a
table-derived `{'type': 'table_endpoint', 'data': cells}` (which has no
`method` or `path` key). -/
inductive Endpoint where
  | pat (method path : String)
  | table (data : List String)
deriving DecidableEq, Repr

/-- A `<table>` element as read by `extract_api_endpoints`: the raw
`get_text()` of every `<th>` in the table, and for each `<tr>` the
stripped cell texts of its `td`/`th` children. -/
structure PyTable where
  thTexts : List String
  trRows : List (List String)
deriving DecidableEq, Repr

/-- A code example dictionary (`{'language', 'code', 'length'}`) as built
by `extract_code_examples`.  The language-detection heuristics (class
hints and content sniffing) are not the subject of any claim; the modelled
soup carries the resulting dictionaries directly. -/
structure CodeExample where
  language : String
  code : String
deriving DecidableEq, Repr

/-- The BeautifulSoup parse of one page, modelled as the bundle of query
results the code reads from the external HTML library:

* `titleCandidates` — `get_text()` of the elements matched by the title
  selectors of `extract_title`, in selector order (missing selectors
  contribute nothing);
* `sectionNodes` — the block-level nodes of the main content region in
  document order, as consumed by `extract_sections`;
* `endpointMatches` — the concatenated `re.findall` results of the four
  endpoint patterns over the flattened text, in pattern order;
* `tables` — the `<table>` elements of the main content region;
* `codeExamples` — the code-example dictionaries of the region;
* `navHrefs` — the `urljoin`-resolved targets of the `href` attributes
  found under the navigation selectors, in document order.

A parsed soup is always Python-truthy: bs4's `Tag.__bool__` returns `True`
unconditionally ("a tag is non-None even if it has no contents"), so the
crawl loop's `if not soup:` fires only for `None`, i.e. a failed fetch.
An empty document parses to a soup whose query results are all empty —
the all-defaults value of this structure. -/
structure Soup where
  titleCandidates : List String := []
  sectionNodes : List SNode := []
  endpointMatches : List RawMatch := []
  tables : List PyTable := []
  codeExamples : List CodeExample := []
  navHrefs : List Url := []
deriving DecidableEq, Repr

/-! ## Fetcher -/

/-- The deterministic network oracle: `static u` is the outcome of
`self.session.get(u)` (`none` models a raised exception or a non-2xx
status turned into an exception by `raise_for_status`); `render u` is the
outcome of the Playwright block (`none` models a Playwright error, which
the code catches and recovers from by falling through to `requests`). -/
structure World where
  static : Url → Option Soup
  render : Url → Option Soup
  playwright_available : Bool := false

/-- The observable result of one `fetch_page` call: the returned value
(`none` for Python `None`), the updated `visited_urls` and `failed_urls`,
and the amount slept during the call. -/
structure FetchR where
  soup : Option Soup
  visited : List Url
  failed : List Url
  slept : ℚ
deriving Repr

/-- Models `set.add` on the visited set (membership-preserving list insert). -/
def addVisited (visited : List Url) (url : Url) : List Url :=
  if url ∈ visited then visited else visited ++ [url]

/-- The `requests` leg of `fetch_page` (lines 139-152): on success the URL
is added to `visited_urls` and the call sleeps `delay_seconds`; on an
exception the URL is appended to `failed_urls` and no sleep happens (the
`time.sleep` on line 145 is unreachable from the `except` branch). -/
def fetchStatic (cfg : FetcherConfig) (w : World) (visited failed : List Url)
    (url : Url) : FetchR :=
  match w.static url with
  | some soup =>
      { soup := some soup, visited := addVisited visited url, failed := failed
        slept := cfg.delay_seconds }
  | none =>
      { soup := none, visited := visited, failed := failed ++ [url], slept := 0 }

/-- Models `fetch_page` (lines 111-152).  The URL filter runs first; with
Playwright enabled and available a successful render returns after adding
the URL to `visited_urls` and sleeping, while a render error falls back to
the `requests` leg. -/
def fetch_page (cfg : FetcherConfig) (w : World) (visited failed : List Url)
    (url : Url) : FetchR :=
  if should_fetch_url cfg visited url = false then
    { soup := none, visited := visited, failed := failed, slept := 0 }
  else if cfg.use_playwright && w.playwright_available then
    match w.render url with
    | some soup =>
        { soup := some soup, visited := addVisited visited url, failed := failed
          slept := cfg.delay_seconds }
    | none => fetchStatic cfg w visited failed url
  else
    fetchStatic cfg w visited failed url

/-- The observable outcome of a sequence of `fetch_page` calls. -/
structure ManyR where
  visited : List Url
  failed : List Url
  slept : ℚ
  returns : List (Option Soup)

/-- N consecutive `fetch_page` calls, threading `visited_urls` and
`failed_urls`, accumulating the slept time and recording each call's
return value, as the crawl loop performs them. -/
def fetchMany (cfg : FetcherConfig) (w : World) :
    List Url → List Url → List Url → ManyR
  | visited, failed, [] =>
      { visited := visited, failed := failed, slept := 0, returns := [] }
  | visited, failed, u :: us =>
      let r := fetch_page cfg w visited failed u
      let rest := fetchMany cfg w r.visited r.failed us
      { visited := rest.visited, failed := rest.failed
        slept := r.slept + rest.slept, returns := r.soup :: rest.returns }

/-! ## Content extractor -/

/-- Models `extract_title` (lines 154-174): the first selector hit whose stripped
text is non-empty and shorter than 200 characters; fallback `"Untitled"`. -/
def extract_title (soup : Soup) : String :=
  match (soup.titleCandidates.map pyStripStr).find?
      (fun t => !(t == "") && t.length < 200) with
  | some t => t
  | none => "Untitled"

/-- The loop body state of `extract_sections`: the already-closed sections
and the currently open one (`current_section`, `none` before the first
heading). -/
def sectionsGo : Option Section → List SNode → List Section
  | cur, [] =>
      match cur with
      | some s => if s.content.isEmpty then [] else [s]
      | none => []
  | cur, SNode.heading lv t :: rest =>
      match cur with
      | some s =>
          if s.content.isEmpty then
            sectionsGo (some ⟨lv, pyStripStr t, []⟩) rest
          else
            s :: sectionsGo (some ⟨lv, pyStripStr t, []⟩) rest
      | none => sectionsGo (some ⟨lv, pyStripStr t, []⟩) rest
  | cur, SNode.block txt :: rest =>
      match cur with
      | some s =>
          if 10 < (pyStripStr txt).length then
            sectionsGo (some ⟨s.level, s.title, s.content ++ [pyStripStr txt]⟩) rest
          else
            sectionsGo (some s) rest
      | none => sectionsGo none rest

/-- Models `extract_sections` (lines 201-231): scan the block-level nodes in
document order; a heading opens a new section, appending the previous one
when it accumulated content; any other node's stripped text is added to
the open section when longer than 10 characters; the trailing open section
is flushed when non-empty. -/
def extract_sections (nodes : List SNode) : List Section :=
  sectionsGo none nodes

/-- The five HTTP verbs recognized by `extract_api_endpoints`. -/
def httpVerbs : List String := ["GET", "POST", "PUT", "DELETE", "PATCH"]

/-- Turning one raw regex match into an endpoint dictionary
(lines 245-264): a two-group match supplies the method (defaulted to `GET`
unless its uppercasing is a recognized verb) and the path; a single-group
match becomes a `GET` endpoint with the match as path. -/
def matchToEndpoint : RawMatch → Endpoint
  | RawMatch.tup m p =>
      Endpoint.pat (if pyUpper m ∈ httpVerbs then pyUpper m else "GET") p
  | RawMatch.single s => Endpoint.pat "GET" s

/-- The header keywords that make a table eligible for endpoint
extraction. -/
def tableKeywords : List String := ["endpoint", "method", "path", "url"]

/-- The table scan of `extract_api_endpoints` (lines 267-277): when the
space-joined, stripped, lowercased `<th>` texts contain one of the
keywords, every `<tr>` after the first with at least two cells becomes a
table endpoint carrying its cell texts. -/
def tableEndpoints (t : PyTable) : List Endpoint :=
  let headers := t.thTexts.map (fun h => pyLower (pyStripStr h))
  if tableKeywords.any (fun k => strContainsSub (String.intercalate " " headers) k) then
    (t.trRows.drop 1).filterMap
      (fun cells => if 2 ≤ cells.length then some (Endpoint.table cells) else none)
  else
    []

/-- The dedup key of line 283:
`f"{endpoint.get('method', 'GET')}:{endpoint.get('path', '')}"`.  A
table endpoint's dictionary has neither key, so both defaults apply and
every table endpoint gets the key `"GET:"`. -/
def endpointKey : Endpoint → String
  | Endpoint.pat m p => m ++ ":" ++ p
  | Endpoint.table _ => "GET" ++ ":" ++ ""

/-- The dedup fold of lines 280-286, keeping the first endpoint for each
key. -/
def dedupGo (seen : List String) : List Endpoint → List Endpoint
  | [] => []
  | e :: rest =>
      if endpointKey e ∈ seen then dedupGo seen rest
      else e :: dedupGo (endpointKey e :: seen) rest

/-- The candidate endpoint list accumulated by `extract_api_endpoints`
before deduplication: pattern matches first (lines 243-264), then table
endpoints (lines 267-277). -/
def endpointCandidates (soup : Soup) : List Endpoint :=
  soup.endpointMatches.map matchToEndpoint ++ soup.tables.flatMap tableEndpoints

/-- Models `extract_api_endpoints` (lines 233-288): the candidate list followed
by the dedup fold. -/
def extract_api_endpoints (cfg : FetcherConfig) (soup : Soup) : List Endpoint :=
  if !cfg.extract_api_endpoints then []
  else dedupGo [] (endpointCandidates soup)

/-- Models `extract_code_examples` (lines 290-332) gated by its config toggle;
the per-block language heuristics are carried by the soup. -/
def extract_code_examples (cfg : FetcherConfig) (soup : Soup) : List CodeExample :=
  if !cfg.extract_code_examples then [] else soup.codeExamples

/-- Models `find_navigation_links` (lines 334-359): keep the hrefs passing the
URL filter against the current visited set, then `list(set(...))`.
Python's set iteration order is unspecified; the model keeps first
occurrences, and every concrete execution below feeds duplicate-free link
lists so the order never matters. -/
def find_navigation_links (cfg : FetcherConfig) (visited : List Url)
    (soup : Soup) : List Url :=
  (soup.navHrefs.filter (should_fetch_url cfg visited)).dedup

/-- The page-content dictionary built by `extract_page_content`
(lines 361-379). -/
structure PageContent where
  url : Url
  title : String
  sections : List Section
  api_endpoints : List Endpoint
  code_examples : List CodeExample
  navigation_links : List Url
deriving DecidableEq, Repr

/-- Models `extract_page_content` (lines 361-379) for a parsed soup (its
`if not soup: return {}` guard never fires on one, since bs4 soups are
truthy and `fetch_page` returns either a soup or `None`).  (`visited`
is the fetcher's visited set at call time, read by
`find_navigation_links` through the URL filter.) -/
def extract_page_content (cfg : FetcherConfig) (visited : List Url)
    (soup : Soup) (url : Url) : PageContent :=
  { url := url
    title := extract_title soup
    sections := extract_sections soup.sectionNodes
    api_endpoints := extract_api_endpoints cfg soup
    code_examples := extract_code_examples cfg soup
    navigation_links := find_navigation_links cfg visited soup }

/-! ## Markdown renderer -/

/-- Rendering a `Url` back to the string the code interpolates (the
scheme prefix is constant per URL and irrelevant to every claim, so it is
elided). -/
def urlText (u : Url) : String :=
  u.netloc ++ u.path
    ++ (match u.query with | some q => "?" ++ q | none => "")
    ++ (match u.fragment with | some f => "#" ++ f | none => "")

/-- The per-section lines of `convert_to_markdown` (lines 399-412). -/
def sectionLines (s : Section) : List String :=
  [String.mk (List.replicate (min (s.level + 1) 6) '#') ++ " " ++ s.title, ""]
    ++ (s.content.take 3).flatMap (fun item => [item, ""])

/-- The per-endpoint line of `convert_to_markdown` (lines 421-431). -/
def endpointLine : Endpoint → String
  | Endpoint.table data => "- **Table Data:** " ++ String.intercalate " | " data
  | Endpoint.pat m p => "- **" ++ m ++ "** `" ++ p ++ "`"

/-- The per-example lines of `convert_to_markdown` (lines 442-457);
`i` is the zero-based position in the rendered list. -/
def exampleLines (i : Nat) (ex : CodeExample) : List String :=
  let code :=
    if 1000 < ex.code.length then ex.code.take 1000 ++ "\n... (truncated)"
    else ex.code
  ["### Example " ++ toString (i + 1) ++ " (" ++ ex.language ++ ")", "",
   "```" ++ ex.language, code, "```", ""]

/-- Models `convert_to_markdown` (lines 381-459). -/
def convert_to_markdown (content : PageContent) (api_name : Option String) : String :=
  let title :=
    match api_name with
    | some n => n ++ " - " ++ content.title
    | none => content.title
  let lines :=
    ["# " ++ title, "", "**Source:** " ++ urlText content.url, ""]
      ++ content.sections.flatMap sectionLines
      ++ (if content.api_endpoints.isEmpty then []
          else ["## API Endpoints", ""]
            ++ (content.api_endpoints.take 10).map endpointLine ++ [""])
      ++ (if content.code_examples.isEmpty then []
          else ["## Code Examples", ""]
            ++ (content.code_examples.take 5).enum.flatMap
                (fun p => exampleLines p.1 p.2))
  String.intercalate "\n" lines

/-! ## Crawl orchestrator -/

/-- The mutable state of one crawl.  `queue`/`processed` are the per-site
`pages_to_process` / `processed_count`; `visited`, `failed`, `successful`
and `created_files` live on the fetcher instance and persist across base
URLs.  Queue entries carry a ghost crawl depth (seed pages at 0, links of
a page at its depth + 1): the Python list stores bare URLs and never reads
a depth, so the ghost component does not influence any behavior — it only
lets depth be spoken about. `writes` is the event log of file writes
`(filename, rendered document)` in program order; `created_files` is the
dictionary keyed by filename (a later write to the same name overwrites
the entry, as the dict assignment and the file write both do). -/
structure CrawlState where
  queue : List (Url × Nat)
  processed : Nat
  visited : List Url
  failed : List Url
  successful : List PageContent
  created_files : List (String × String)
  writes : List (String × String)
  slept : ℚ

/-- The filename of line 503:
`f"{api_name}_{processed_count:02d}_{safe_title}.md"`. -/
def mkFilename (apiName : String) (n : Nat) (title : String) : String :=
  apiName ++ "_" ++ pad2 n ++ "_" ++ slugify title ++ ".md"

/-- Python dict assignment `d[k] = v`: update in place when the key
exists, else append. -/
def assocSet (l : List (String × String)) (k v : String) : List (String × String) :=
  if (l.map Prod.fst).contains k then
    l.map (fun p => if p.1 == k then (k, v) else p)
  else
    l ++ [(k, v)]

/-- The hardcoded page budget of the crawl loop:
`while pages_to_process and processed_count < 20:  # Limit total pages`
(line 482).  This is what the spec calls `maxPagesPerSite`; `FetcherConfig`
has no such field — the bound is the literal 20. -/
def pageLimit : Nat := 20

/-- The loop body of `crawl_documentation` (lines 483-522) for a dequeued
task `(u, d)`; `s.queue` already holds the remaining frontier.  Steps, as
in the code: skip if visited; fetch (threading visited/failed/sleep); skip
a `None` soup (`if not soup: continue` — since bs4 soups are never falsy,
this is exactly the fetch-failure case, already recorded by `fetch_page`;
the later `if not page_content: continue` branch is unreachable because
`extract_page_content` returns a non-empty dict for every soup);
extract; record the page; write the rendered document;
enqueue up to the first 5 navigation links not already enqueued or visited
when `processed_count < max_depth`; finally increment `processed_count`. -/
def processTask (cfg : FetcherConfig) (w : World) (apiName : String)
    (u : Url) (d : Nat) (s : CrawlState) : CrawlState :=
  if u ∈ s.visited then s
  else
    let r := fetch_page cfg w s.visited s.failed u
    let s1 := { s with visited := r.visited, failed := r.failed
                       slept := s.slept + r.slept }
    match r.soup with
    | none => s1
    | some soup =>
        let pc := extract_page_content cfg s1.visited soup u
        let filename := mkFilename apiName s1.processed pc.title
        let md := convert_to_markdown pc (some apiName)
        let queue' :=
          if s1.processed < cfg.max_depth then
            (pc.navigation_links.take 5).foldl
              (fun q l =>
                if (q.map Prod.fst).contains l || l ∈ s1.visited then q
                else q ++ [(l, d + 1)])
              s1.queue
          else s1.queue
        { s1 with
          successful := s1.successful ++ [pc]
          writes := s1.writes ++ [(filename, md)]
          created_files :=
            assocSet s1.created_files filename (cfg.output_dir ++ "/" ++ filename)
          queue := queue'
          processed := s1.processed + 1 }

/-- The per-site `while` loop (line 482), fuel-indexed: the loop body runs
only while the frontier is non-empty and `processed_count < 20`. -/
def siteLoop (cfg : FetcherConfig) (w : World) (apiName : String) :
    Nat → CrawlState → CrawlState
  | 0, s => s
  | Nat.succ fuel, s =>
    match s.queue with
    | [] => s
    | (u, d) :: rest =>
      if s.processed < pageLimit then
        siteLoop cfg w apiName fuel (processTask cfg w apiName u d { s with queue := rest })
      else s

/-- The initial crawl state. -/
def initState : CrawlState :=
  { queue := [], processed := 0, visited := [], failed := [], successful := []
    created_files := [], writes := [], slept := 0 }

/-- Models `crawl_documentation` (lines 461-528): for each base URL, reset the
frontier to the seed task at ghost depth 0 and the per-site counter to 0,
then run the site loop; fetcher-level state persists across sites. -/
def crawl_documentation (cfg : FetcherConfig) (w : World) (fuel : Nat) : CrawlState :=
  cfg.base_urls.foldl
    (fun s base =>
      siteLoop cfg w (apiNameOf base) fuel
        { s with queue := [(base, 0)], processed := 0 })
    initState

/-! ## Index builder -/

/-- The link label of line 551:
`filename.replace('.md', '').replace('_', ' ').title()`. -/
def indexFileLabel (filename : String) : String :=
  pyTitle (pyReplace (pyReplace filename ".md" "") "_" " ")

/-- Models `sorted(created_files.keys())` of line 550. -/
def sortedFileNames (created_files : List (String × String)) : List String :=
  (created_files.map Prod.fst).insertionSort (· ≤ ·)

/-- The document built by `create_index_file` (lines 530-577).  `now` is
the value of `time.strftime('%Y-%m-%d %H:%M:%S')` at the moment of the
call — an input the code reads from the clock, not from its parameters. -/
def create_index_content (cfg : FetcherConfig) (now : String)
    (created_files : List (String × String)) (successCount : Nat)
    (failed : List Url) : String :=
  let lines :=
    ["# API Documentation Index", "", "Generated on " ++ now, "",
     "**Source URLs:**"]
      ++ cfg.base_urls.map (fun u => "- " ++ urlText u)
      ++ ["", "## Documentation Files", ""]
      ++ (sortedFileNames created_files).map
          (fun fn => "- [" ++ indexFileLabel fn ++ "](./" ++ fn ++ ")")
      ++ ["", "## Summary", "",
          "- Total files: " ++ toString created_files.length,
          "- Successfully processed: " ++ toString successCount,
          "- Failed URLs: " ++ toString failed.length, ""]
      ++ (if failed.isEmpty then []
          else ["### Failed URLs:", ""] ++ failed.map (fun u => "- " ++ urlText u))
  String.intercalate "\n" lines

/-! ## Statement helpers

Derived observations of a `processTask` step, used to phrase claims about
the loop body without repeating its case analysis. -/

/-- The navigation links of the page a `processTask` step processes (empty
when the step skips the task: already visited or fetch failure). -/
def pageNav (cfg : FetcherConfig) (w : World) (s : CrawlState) (u : Url) : List Url :=
  if u ∈ s.visited then []
  else
    match (fetch_page cfg w s.visited s.failed u).soup with
    | none => []
    | some soup =>
        (extract_page_content cfg
          (fetch_page cfg w s.visited s.failed u).visited soup u).navigation_links

/-- The dedup key the claim attributes to endpoints: for table endpoints,
the method default with the full cell-joined string as path.  This
definition follows the spec's words (not the code) and exists only to be
compared against the code's `endpointKey`. -/
def claimedKey : Endpoint → String
  | Endpoint.pat m p => m ++ ":" ++ p
  | Endpoint.table data => "GET" ++ ":" ++ String.intercalate " | " data

/-! ## Concrete fixtures

Small worlds used by the closed theorems below. -/

/-- A two-page site: the home page links to a page `B` and to a URL whose
fetch always fails; `B` links to the failing URL again. -/
def fixHome : Url := ⟨"a.com", "/", none, none⟩

def fixB : Url := ⟨"a.com", "/b", none, none⟩

def fixBad : Url := ⟨"a.com", "/f", none, none⟩

def fixSoupHome : Soup := { titleCandidates := ["Home"], navHrefs := [fixBad, fixB] }

def fixSoupB : Soup := { titleCandidates := ["B Page"], navHrefs := [fixBad] }

def fixWorld9 : World :=
  { static := fun u =>
      if u = fixHome then some fixSoupHome
      else if u = fixB then some fixSoupB
      else none
    render := fun _ => none }

def fixCfg9 : FetcherConfig :=
  { base_urls := [fixHome], output_dir := "docs", delay_seconds := 1 }

/-- A site whose single page fetches successfully with an empty body: the
parse yields a soup with no extractable content (every query result
empty). -/
def fixEmptyUrl : Url := ⟨"a.com", "/empty", none, none⟩

def fixWorld5 : World :=
  { static := fun u => if u = fixEmptyUrl then some {} else none
    render := fun _ => none }

def fixCfg5 : FetcherConfig :=
  { base_urls := [fixEmptyUrl], output_dir := "docs" }

/-- Two base URLs on the same host whose pages carry the same title and no
links. -/
def fixBase1 : Url := ⟨"www.example.com", "/a", none, none⟩

def fixBase2 : Url := ⟨"www.example.com", "/b", none, none⟩

def fixWorld10 : World :=
  { static := fun u =>
      if u = fixBase1 then some { titleCandidates := ["Doc"] }
      else if u = fixBase2 then some { titleCandidates := ["Doc"] }
      else none
    render := fun _ => none }

def fixCfg10 : FetcherConfig :=
  { base_urls := [fixBase1, fixBase2], output_dir := "out" }

/-! ## Helper lemmas -/

theorem fetch_page_spec (cfg : FetcherConfig) (w : World) (visited failed : List Url)
    (u : Url) :
    ((fetch_page cfg w visited failed u).soup.isSome = true →
       (fetch_page cfg w visited failed u).visited = addVisited visited u
     ∧ (fetch_page cfg w visited failed u).failed = failed
     ∧ (fetch_page cfg w visited failed u).slept = cfg.delay_seconds)
  ∧ ((fetch_page cfg w visited failed u).soup = none →
       (fetch_page cfg w visited failed u).visited = visited
     ∧ (fetch_page cfg w visited failed u).slept = 0)
  ∧ (should_fetch_url cfg visited u = true →
     (fetch_page cfg w visited failed u).soup = none →
       (fetch_page cfg w visited failed u).failed = failed ++ [u])
  ∧ ((fetch_page cfg w visited failed u).soup.isSome = false →
       (fetch_page cfg w visited failed u).failed = failed
     ∨ (fetch_page cfg w visited failed u).failed = failed ++ [u]) := by
  unfold fetch_page fetchStatic
  by_cases hf : should_fetch_url cfg visited u = false
  · simp [hf]
  · simp only [hf, if_false]
    by_cases hpw : (cfg.use_playwright && w.playwright_available) = true
    · simp only [hpw, if_true]
      cases hr : w.render u with
      | some soup => simp
      | none =>
        cases hs : w.static u with
        | some soup => simp
        | none => simp
    · simp only [hpw, if_false]
      cases hs : w.static u with
      | some soup => simp
      | none => simp

/-! ## Claims -/

/-- C1 counterexample.  The claim says `should_fetch_url` rejects a URL
whose *normalized* form (fragment/query stripped) is already visited.  The
code checks exact membership only: with `a.com/p` visited, the URL
`a.com/p#sec` — whose normalized form is the visited `a.com/p` — is
accepted. -/
theorem C1_counterexample :
    should_fetch_url
        { base_urls := [⟨"a.com", "/", none, none⟩], output_dir := "docs" }
        [⟨"a.com", "/p", none, none⟩]
        ⟨"a.com", "/p", none, some "sec"⟩ = true
  ∧ normalizeUrl ⟨"a.com", "/p", none, some "sec"⟩
      ∈ [(⟨"a.com", "/p", none, none⟩ : Url)] := by
  constructor
  · rfl
  · simp [normalizeUrl]

/-- C1 (amended): dedup in `should_fetch_url` uses the exact, unnormalized
URL — for every URL, config and visited set, a URL already present in the
visited set is rejected; URLs differing only by fragment or query string
are *distinct* for dedup purposes (the counterexample shows the second one
is accepted after the first is visited). -/
theorem C1_visited_never_fetched (cfg : FetcherConfig) (visited : List Url)
    (u : Url) (h : u ∈ visited) :
    should_fetch_url cfg visited u = false := by
  simp [should_fetch_url, h]

/-- C1 witness: the amended theorem at a concrete input. -/
theorem C1_witness :
    should_fetch_url
        { base_urls := [⟨"a.com", "/", none, none⟩], output_dir := "docs" }
        [⟨"a.com", "/p", none, none⟩]
        ⟨"a.com", "/p", none, none⟩ = false :=
  C1_visited_never_fetched _ _ _ (by simp)

/-- C3 counterexample.  The claim says every fetch call, success or
failure, sleeps `delay_seconds`.  On a failing fetch (the oracle raises on
every URL) the code records the failure but the `time.sleep` on the
success path is never reached: the call sleeps 0 while `delay_seconds`
is 1. -/
theorem C3_counterexample :
    (fetch_page
        { base_urls := [⟨"a.com", "/", none, none⟩], output_dir := "docs"
          delay_seconds := 1 }
        { static := fun _ => none, render := fun _ => none }
        [] [] ⟨"a.com", "/", none, none⟩).slept = 0
  ∧ (fetch_page
        { base_urls := [⟨"a.com", "/", none, none⟩], output_dir := "docs"
          delay_seconds := 1 }
        { static := fun _ => none, render := fun _ => none }
        [] [] ⟨"a.com", "/", none, none⟩).failed = [⟨"a.com", "/", none, none⟩]
  ∧ (0 : ℚ) < 1 := by
  refine ⟨rfl, rfl, by norm_num⟩

/-- C3 (amended): the rate-limit sleep happens exactly on the calls that
return a page — a `fetch_page` call sleeps `delay_seconds` when it returns
a soup and 0 when it returns `None`; consequently a sequence of calls
accumulates `delay_seconds` times the number of *successful* calls, and N
consecutive successful fetches with delay d accumulate exactly `N*d`. -/
theorem C3_sleep_on_success :
    (∀ (cfg : FetcherConfig) (w : World) (visited failed : List Url) (u : Url),
       (fetch_page cfg w visited failed u).slept
         = if (fetch_page cfg w visited failed u).soup.isSome
           then cfg.delay_seconds else 0)
  ∧ (∀ (cfg : FetcherConfig) (w : World) (visited failed : List Url) (urls : List Url),
       (fetchMany cfg w visited failed urls).slept
         = cfg.delay_seconds
             * (((fetchMany cfg w visited failed urls).returns.filter
                  Option.isSome).length : ℚ))
  ∧ (∀ (cfg : FetcherConfig) (w : World) (visited failed : List Url) (urls : List Url),
       (∀ o ∈ (fetchMany cfg w visited failed urls).returns, o.isSome = true) →
       (fetchMany cfg w visited failed urls).slept
         = (urls.length : ℚ) * cfg.delay_seconds) := by
  have single : ∀ (cfg : FetcherConfig) (w : World) (visited failed : List Url) (u : Url),
      (fetch_page cfg w visited failed u).slept
        = if (fetch_page cfg w visited failed u).soup.isSome
          then cfg.delay_seconds else 0 := by
    intro cfg w visited failed u
    cases hs : (fetch_page cfg w visited failed u).soup with
    | none =>
        have := ((fetch_page_spec cfg w visited failed u).2.1 hs).2
        simp [hs, this]
    | some s =>
        have := ((fetch_page_spec cfg w visited failed u).1 (by simp [hs])).2.2
        simp [hs, this]
  have many : ∀ (cfg : FetcherConfig) (w : World) (urls : List Url)
      (visited failed : List Url),
      (fetchMany cfg w visited failed urls).slept
        = cfg.delay_seconds
            * (((fetchMany cfg w visited failed urls).returns.filter
                 Option.isSome).length : ℚ) := by
    intro cfg w urls
    induction urls with
    | nil => intro visited failed; simp [fetchMany]
    | cons u us ih =>
        intro visited failed
        simp only [fetchMany]
        rw [single, ih]
        cases hs : (fetch_page cfg w visited failed u).soup with
        | none => simp [hs]
        | some s => simp [hs]; ring
  refine ⟨single, fun cfg w visited failed urls => many cfg w urls visited failed, ?_⟩
  intro cfg w visited failed urls hall
  have hlen : ∀ (us : List Url) (visited failed : List Url),
      (fetchMany cfg w visited failed us).returns.length = us.length := by
    intro us
    induction us with
    | nil => intro v f; simp [fetchMany]
    | cons u us ih => intro v f; simp [fetchMany, ih]
  have hfil : ((fetchMany cfg w visited failed urls).returns.filter Option.isSome)
      = (fetchMany cfg w visited failed urls).returns := by
    exact List.filter_eq_self.mpr hall
  rw [many cfg w urls visited failed, hfil, hlen]
  ring

/-- C3 witness: a single successful fetch with delay 1 sleeps `1 * 1`. -/
theorem C3_witness :
    (fetchMany
        { base_urls := [⟨"a.com", "/", none, none⟩], output_dir := "docs"
          delay_seconds := 1 }
        { static := fun _ => some {}, render := fun _ => none }
        [] [] [⟨"a.com", "/", none, none⟩]).slept
      = (([(⟨"a.com", "/", none, none⟩ : Url)].length : ℚ)) * 1 :=
  C3_sleep_on_success.2.2
    { base_urls := [⟨"a.com", "/", none, none⟩], output_dir := "docs"
      delay_seconds := 1 }
    { static := fun _ => some {}, render := fun _ => none }
    [] [] [⟨"a.com", "/", none, none⟩]
    (by intro o ho; simp [fetchMany, fetch_page, fetchStatic, should_fetch_url] at ho; simp [ho])

/-- C9: a failing fetch leaves the visited set unchanged, a successful one
adds its (unnormalized) URL; on the fixture site whose `/f` page always
fails, `/f` is fetched once from the home page and once more after being
re-discovered on page `B`, and appears twice in `failed_urls` (the final
frontier is empty, so the run is complete). -/
theorem C9_refetch_failed (cfg : FetcherConfig) (w : World)
    (visited failed : List Url) (u : Url) :
    ((fetch_page cfg w visited failed u).soup = none →
       (fetch_page cfg w visited failed u).visited = visited)
  ∧ ((fetch_page cfg w visited failed u).soup.isSome = true →
       (fetch_page cfg w visited failed u).visited = addVisited visited u)
  ∧ (crawl_documentation fixCfg9 fixWorld9 50).failed = [fixBad, fixBad]
  ∧ (crawl_documentation fixCfg9 fixWorld9 50).queue = [] := by
  refine ⟨?_, ?_, by rfl, by rfl⟩
  · intro h
    exact ((fetch_page_spec cfg w visited failed u).2.1 h).1
  · intro h
    exact ((fetch_page_spec cfg w visited failed u).1 h).1

/-- C9 witness: the fetch of the always-failing URL in the fixture world
leaves the empty visited set unchanged. -/
theorem C9_witness :
    (fetch_page fixCfg9 fixWorld9 [] [] fixBad).visited = [] :=
  (C9_refetch_failed fixCfg9 fixWorld9 [] [] fixBad).1 (by rfl)

/-- C5 counterexample.  On the fixture site whose single page fetches
successfully with an empty body, the parsed soup is truthy (bs4 tags
always are), so the crawl does not treat the page as failed: nothing is
recorded in `failed_urls` — and, against the claim's "no document file is
written", the page is processed and persisted as `a_com_00_Untitled.md`.
The empty frontier shows the run is complete. -/
theorem C5_counterexample :
    (crawl_documentation fixCfg5 fixWorld5 10).visited = [fixEmptyUrl]
  ∧ (crawl_documentation fixCfg5 fixWorld5 10).writes.map Prod.fst
      = ["a_com_00_Untitled.md"]
  ∧ (crawl_documentation fixCfg5 fixWorld5 10).successful.length = 1
  ∧ (crawl_documentation fixCfg5 fixWorld5 10).queue = []
  ∧ ¬ fixEmptyUrl ∈ (crawl_documentation fixCfg5 fixWorld5 10).failed := by
  refine ⟨rfl, rfl, rfl, rfl, by decide⟩

/-- C5 (amended): only a fetch error makes a URL fail — it is then
recorded in `failed_urls`, no document is written, no page is recorded,
and the loop continues with the remaining frontier.  A document that
parses to an empty or malformed page is *not* a failure bucket at all:
every fetched soup is truthy (bs4 tags always are), so the page is
processed and persisted normally — `failed_urls` is untouched, the record
joins `successful_pages`, and exactly one file is written. -/
theorem C5_error_isolation (cfg : FetcherConfig) (w : World) (api : String) :
    (∀ (s : CrawlState) (u : Url) (d : Nat),
       u ∉ s.visited →
       should_fetch_url cfg s.visited u = true →
       (fetch_page cfg w s.visited s.failed u).soup = none →
         (processTask cfg w api u d s).failed = s.failed ++ [u]
       ∧ (processTask cfg w api u d s).writes = s.writes
       ∧ (processTask cfg w api u d s).successful = s.successful
       ∧ (processTask cfg w api u d s).queue = s.queue)
  ∧ (∀ (s : CrawlState) (u : Url) (d : Nat) (soup : Soup),
       u ∉ s.visited →
       (fetch_page cfg w s.visited s.failed u).soup = some soup →
         (processTask cfg w api u d s).failed = s.failed
       ∧ (processTask cfg w api u d s).successful
           = s.successful
             ++ [extract_page_content cfg
                  (fetch_page cfg w s.visited s.failed u).visited soup u]
       ∧ (processTask cfg w api u d s).writes.length = s.writes.length + 1) := by
  constructor
  · intro s u d hnv hsf hnone
    have hfail := (fetch_page_spec cfg w s.visited s.failed u).2.2.1 hsf hnone
    simp [processTask, hnv, hnone, hfail]
  · intro s u d soup hnv hsome
    have hfail := ((fetch_page_spec cfg w s.visited s.failed u).1 (by simp [hsome])).2.1
    simp [processTask, hnv, hsome, hfail]

/-- C5 witness: the amended theorem's fetch-error clause on the fixture
world at the always-failing URL: it is recorded and nothing is written. -/
theorem C5_witness :
    (processTask fixCfg9 fixWorld9 "a_com" fixBad 1 initState).failed = [] ++ [fixBad]
  ∧ (processTask fixCfg9 fixWorld9 "a_com" fixBad 1 initState).writes = [] :=
  ⟨((C5_error_isolation fixCfg9 fixWorld9 "a_com").1 initState fixBad 1
      (by decide) (by rfl) (by rfl)).1,
   ((C5_error_isolation fixCfg9 fixWorld9 "a_com").1 initState fixBad 1
      (by decide) (by rfl) (by rfl)).2.1⟩

theorem enqueue_foldl (visited : List Url) (d : Nat) :
    ∀ (links : List Url) (q : List (Url × Nat)),
      ∃ new : List (Url × Nat),
        links.foldl
            (fun q l =>
              if (q.map Prod.fst).contains l || l ∈ visited then q
              else q ++ [(l, d + 1)]) q
          = q ++ new
        ∧ new.Sublist (links.map (fun l => (l, d + 1)))
  | [], q => ⟨[], by simp⟩
  | l :: ls, q => by
    simp only [List.foldl_cons, List.map_cons]
    by_cases hc : ((q.map Prod.fst).contains l || l ∈ visited) = true
    · rcases enqueue_foldl visited d ls q with ⟨new, h1, h2⟩
      refine ⟨new, ?_, h2.cons _⟩
      rw [if_pos hc]
      exact h1
    · rcases enqueue_foldl visited d ls (q ++ [(l, d + 1)]) with ⟨new, h1, h2⟩
      refine ⟨(l, d + 1) :: new, ?_, h2.cons₂ _⟩
      rw [if_neg hc, h1, List.append_assoc]
      rfl

/-- C2: the per-site crawl loop runs only while the frontier is non-empty
and the per-site processed-page counter is below the page budget
(`pageLimit`, the code's literal 20 — the spec's `maxPagesPerSite`); one
loop iteration dequeues the front task; and a `processTask` step extends
the frontier only by tasks drawn from the first 5 of the processed page's
navigation links, each enqueued at the dequeued task's depth + 1, and by
nothing at all once the processed count has reached `max_depth`. -/
theorem C2_crawl_loop (cfg : FetcherConfig) (w : World) (api : String) :
    (∀ (fuel : Nat) (s : CrawlState),
       s.queue = [] ∨ pageLimit ≤ s.processed →
       siteLoop cfg w api fuel s = s)
  ∧ (∀ (fuel : Nat) (s : CrawlState) (u : Url) (d : Nat) (rest : List (Url × Nat)),
       s.queue = (u, d) :: rest →
       s.processed < pageLimit →
       siteLoop cfg w api (fuel + 1) s
         = siteLoop cfg w api fuel (processTask cfg w api u d { s with queue := rest }))
  ∧ (∀ (s : CrawlState) (u : Url) (d : Nat),
       ∃ new : List (Url × Nat),
         (processTask cfg w api u d s).queue = s.queue ++ new
       ∧ new.Sublist (((pageNav cfg w s u).take 5).map (fun l => (l, d + 1)))
       ∧ (cfg.max_depth ≤ s.processed → new = [])) := by
  refine ⟨?_, ?_, ?_⟩
  · intro fuel s h
    cases fuel with
    | zero => rfl
    | succ fuel =>
      rcases h with h | h
      · simp [siteLoop, h]
      · cases hq : s.queue with
        | nil => simp [siteLoop, hq]
        | cons p rest =>
          obtain ⟨u, d⟩ := p
          simp [siteLoop, hq, Nat.not_lt.mpr h]
  · intro fuel s u d rest hq hlt
    simp [siteLoop, hq, hlt]
  · intro s u d
    by_cases hv : u ∈ s.visited
    · exact ⟨[], by simp [processTask, hv], by simp, fun _ => rfl⟩
    · cases hfetch : (fetch_page cfg w s.visited s.failed u).soup with
      | none => exact ⟨[], by simp [processTask, hv, hfetch], by simp, fun _ => rfl⟩
      | some soup =>
        by_cases hd : s.processed < cfg.max_depth
        · rcases enqueue_foldl (fetch_page cfg w s.visited s.failed u).visited d
              ((extract_page_content cfg (fetch_page cfg w s.visited s.failed u).visited
                soup u).navigation_links.take 5) s.queue with ⟨new, h1, h2⟩
          refine ⟨new, ?_, ?_, fun h' => absurd hd (Nat.not_lt.mpr h')⟩
          · simp [processTask, hv, hfetch, hd]
            exact h1
          · have hnav : pageNav cfg w s u
                = (extract_page_content cfg
                    (fetch_page cfg w s.visited s.failed u).visited soup
                    u).navigation_links := by
              simp [pageNav, hv, hfetch]
            rw [hnav]
            have hmap : (((extract_page_content cfg
                  (fetch_page cfg w s.visited s.failed u).visited soup
                  u).navigation_links).take 5).map (fun l => (l, d + 1))
                = ((extract_page_content cfg
                  (fetch_page cfg w s.visited s.failed u).visited soup
                  u).navigation_links.map (fun l => (l, d + 1))).take 5 := by
              rw [List.map_take]
            exact hmap ▸ (by simpa [List.map_take] using h2)
        · exact ⟨[], by simp [processTask, hv, hfetch, hd], by simp,
            fun _ => rfl⟩

/-- C2 witness: on an empty frontier the loop does nothing. -/
theorem C2_witness :
    siteLoop { base_urls := [], output_dir := "docs" }
      { static := fun _ => none, render := fun _ => none } "x" 3 initState
      = initState :=
  (C2_crawl_loop { base_urls := [], output_dir := "docs" }
    { static := fun _ => none, render := fun _ => none } "x").1 3 initState
    (Or.inl rfl)

/-- C6: the section scan.  Two adjacent headings contribute nothing from
the first (empty) section; a block whose stripped text exceeds 10
characters is appended to the open section while a shorter one is skipped;
the trailing open section is flushed exactly when it has content; blocks
before the first heading are discarded; and a heading followed by one long
paragraph yields exactly one section with one content block. -/
theorem C6_extract_sections :
    (∀ (l₁ : Nat) (t₁ : String) (l₂ : Nat) (t₂ : String) (rest : List SNode),
       extract_sections (SNode.heading l₁ t₁ :: SNode.heading l₂ t₂ :: rest)
         = extract_sections (SNode.heading l₂ t₂ :: rest))
  ∧ (∀ (s : Section) (txt : String) (rest : List SNode),
       10 < (pyStripStr txt).length →
       sectionsGo (some s) (SNode.block txt :: rest)
         = sectionsGo (some ⟨s.level, s.title, s.content ++ [pyStripStr txt]⟩) rest)
  ∧ (∀ (cur : Option Section) (txt : String) (rest : List SNode),
       (pyStripStr txt).length ≤ 10 →
       sectionsGo cur (SNode.block txt :: rest) = sectionsGo cur rest)
  ∧ (∀ s : Section,
       sectionsGo (some s) [] = if s.content.isEmpty then [] else [s])
  ∧ (∀ (txt : String) (rest : List SNode),
       extract_sections (SNode.block txt :: rest) = extract_sections rest)
  ∧ (∀ (l : Nat) (t txt : String),
       10 < (pyStripStr txt).length →
       extract_sections [SNode.heading l t, SNode.block txt]
         = [⟨l, pyStripStr t, [pyStripStr txt]⟩]) := by
  refine ⟨?_, ?_, ?_, ?_, ?_, ?_⟩
  · intro l₁ t₁ l₂ t₂ rest
    rfl
  · intro s txt rest h
    simp [sectionsGo, h]
  · intro cur txt rest h
    cases cur with
    | none => rfl
    | some s => simp [sectionsGo, Nat.not_lt.mpr h]
  · intro s
    rfl
  · intro txt rest
    rfl
  · intro l t txt h
    simp [extract_sections, sectionsGo, h]

/-- C6 witness: the single-section example at concrete inputs. -/
theorem C6_witness :
    extract_sections [SNode.heading 1 "Title", SNode.block "a paragraph long enough"]
      = [⟨1, pyStripStr "Title", [pyStripStr "a paragraph long enough"]⟩] :=
  C6_extract_sections.2.2.2.2.2 1 "Title" "a paragraph long enough" (by decide)

/-- C7 counterexample.  Two invocations of the index builder with
identical `(config, createdFiles, result)` inputs but different clock
readings produce different documents — the index embeds
`time.strftime(...)` in its "Generated on" line, so it is not a pure
function of the claimed inputs. -/
theorem C7_counterexample :
    create_index_content
        { base_urls := [⟨"a.com", "/", none, none⟩], output_dir := "docs" }
        "2024-01-01 00:00:00" [("a.md", "docs/a.md")] 1 []
  ≠ create_index_content
        { base_urls := [⟨"a.com", "/", none, none⟩], output_dir := "docs" }
        "2025-06-30 12:00:00" [("a.md", "docs/a.md")] 1 [] := by
  decide

/-- C7 (amended): the index document is a deterministic function of its
inputs *and the generation timestamp* — in particular it reads nothing
from the config beyond the base-URL list — and the created files are
listed sorted by filename (the emitted name list is `≤`-sorted and is a
permutation of the created filenames). -/
theorem C7_index_deterministic :
    (∀ (cfg₁ cfg₂ : FetcherConfig) (now : String)
        (files : List (String × String)) (n : Nat) (failed : List Url),
       cfg₁.base_urls = cfg₂.base_urls →
       create_index_content cfg₁ now files n failed
         = create_index_content cfg₂ now files n failed)
  ∧ (∀ files : List (String × String),
       List.Sorted (· ≤ ·) (sortedFileNames files))
  ∧ (∀ files : List (String × String),
       (sortedFileNames files).Perm (files.map Prod.fst)) := by
  refine ⟨?_, ?_, ?_⟩
  · intro cfg₁ cfg₂ now files n failed h
    simp [create_index_content, h]
  · intro files
    exact List.sorted_insertionSort _ _
  · intro files
    exact List.perm_insertionSort _ _

/-- C7 witness: two configs equal in their base URLs but with different
output directories produce the same index for the same files and
timestamp. -/
theorem C7_witness :
    create_index_content
        { base_urls := [⟨"a.com", "/", none, none⟩], output_dir := "docs" }
        "2024-01-01 00:00:00" [("a.md", "docs/a.md")] 1 []
  = create_index_content
        { base_urls := [⟨"a.com", "/", none, none⟩], output_dir := "elsewhere" }
        "2024-01-01 00:00:00" [("a.md", "docs/a.md")] 1 [] :=
  C7_index_deterministic.1 _ _ _ _ _ _ rfl

theorem collapseGo_head :
    ∀ (l : List Char) (c : Char),
      (collapseGo true l).head? = some c → isDashOrSpace c = false := by
  intro l
  induction l with
  | nil => intro c h; simp [collapseGo] at h
  | cons a rest ih =>
    intro c h
    by_cases ha : isDashOrSpace a = true
    · rw [collapseGo, if_pos ha, if_pos rfl] at h
      exact ih c h
    · rw [collapseGo, if_neg ha] at h
      simp only [List.head?_cons, Option.some.injEq] at h
      rw [← h]
      simpa using ha

theorem collapseGo_mem :
    ∀ (l : List Char) (b : Bool) (c : Char), c ∈ collapseGo b l →
      c = '-' ∨ (c ∈ l ∧ isDashOrSpace c = false) := by
  intro l
  induction l with
  | nil => intro b c hc; simp [collapseGo] at hc
  | cons a rest ih =>
    intro b c hc
    by_cases ha : isDashOrSpace a = true
    · rw [collapseGo, if_pos ha] at hc
      cases b with
      | true =>
        rw [if_pos rfl] at hc
        rcases ih true c hc with h | ⟨hm, hd⟩
        · exact Or.inl h
        · exact Or.inr ⟨List.mem_cons_of_mem _ hm, hd⟩
      | false =>
        rw [if_neg (by simp)] at hc
        rcases List.mem_cons.mp hc with h | h
        · exact Or.inl h
        · rcases ih true c h with h' | ⟨hm, hd⟩
          · exact Or.inl h'
          · exact Or.inr ⟨List.mem_cons_of_mem _ hm, hd⟩
    · rw [collapseGo, if_neg ha] at hc
      rcases List.mem_cons.mp hc with h | h
      · subst h
        exact Or.inr ⟨List.mem_cons_self _ _, by simpa using ha⟩
      · rcases ih false c h with h' | ⟨hm, hd⟩
        · exact Or.inl h'
        · exact Or.inr ⟨List.mem_cons_of_mem _ hm, hd⟩

theorem collapseGo_chain :
    ∀ (l : List Char) (b : Bool),
      (collapseGo b l).Chain' (fun a b => ¬(a = '-' ∧ b = '-')) := by
  intro l
  induction l with
  | nil => intro b; simp [collapseGo]
  | cons a rest ih =>
    intro b
    by_cases ha : isDashOrSpace a = true
    · rw [collapseGo, if_pos ha]
      cases b with
      | true => rw [if_pos rfl]; exact ih true
      | false =>
        rw [if_neg (by simp), List.chain'_cons']
        refine ⟨?_, ih true⟩
        intro y hy hcon
        have hnd : isDashOrSpace y = false := collapseGo_head rest y hy
        rw [hcon.2] at hnd
        simp [isDashOrSpace] at hnd
    · rw [collapseGo, if_neg ha, List.chain'_cons']
      refine ⟨?_, ih false⟩
      intro y _ hcon
      apply ha
      rw [hcon.1]
      simp [isDashOrSpace]

theorem pyStrip_subset {l : List Char} {c : Char} (h : c ∈ pyStrip l) : c ∈ l := by
  unfold pyStrip at h
  rw [List.mem_reverse] at h
  have h1 := (List.dropWhile_sublist _).subset h
  rw [List.mem_reverse] at h1
  exact (List.dropWhile_sublist _).subset h1

theorem slugify_chars (t : String) :
    (slugify t).data.all (fun c => isWordChar c || c == '-') = true := by
  rw [List.all_eq_true]
  intro c hc
  rw [slugify] at hc
  rcases collapseGo_mem _ _ c hc with h | ⟨hm, hd⟩
  · subst h; rfl
  · have hk : keptBySlugFilter c = true :=
      List.of_mem_filter (pyStrip_subset hm)
    simp only [keptBySlugFilter, Bool.or_eq_true] at hk
    simp only [isDashOrSpace, Bool.or_eq_false_iff] at hd
    rcases hk with (hk | hk) | hk
    · simp [hk]
    · rw [hd.2] at hk; exact absurd hk (by simp)
    · rw [hk] at hd; exact absurd hd.1 (by simp)

theorem slugify_no_adjacent_dashes (t : String) :
    (slugify t).data.Chain' (fun a b => ¬(a = '-' ∧ b = '-')) := by
  rw [slugify]
  exact collapseGo_chain _ _

/-- C8 counterexample.  The claim says the slug is made lowercase; the
code never lowercases: the title `"API Docs"` produces the slug
`"API-Docs"` (which contains uppercase letters) and the filename
`example_com_00_API-Docs.md`. -/
theorem C8_counterexample :
    slugify "API Docs" = "API-Docs"
  ∧ mkFilename "example_com" 0 "API Docs" = "example_com_00_API-Docs.md"
  ∧ (slugify "API Docs").data.any Char.isUpper = true := by
  refine ⟨by decide, by decide, by decide⟩

/-- C8 (amended): every markdown file written for a processed page is
named `<siteLabel>_<NN>_<slug>.md`, where NN is the per-site sequence
number zero-padded to two digits and the slug is the title with non-word
characters stripped and whitespace/hyphen runs collapsed to single
hyphens, its letter case preserved: the write appended by a successful
`processTask` step carries exactly `mkFilename`, whose slug consists of
word characters and hyphens with no two hyphens adjacent. -/
theorem C8_filename_format (cfg : FetcherConfig) (w : World) (api : String) :
    (∀ (s : CrawlState) (u : Url) (d : Nat) (soup : Soup),
       u ∉ s.visited →
       (fetch_page cfg w s.visited s.failed u).soup = some soup →
       (processTask cfg w api u d s).writes
         = s.writes
           ++ [(mkFilename api s.processed (extract_title soup),
                convert_to_markdown
                  (extract_page_content cfg
                    (fetch_page cfg w s.visited s.failed u).visited soup u)
                  (some api))])
  ∧ (∀ (a : String) (n : Nat) (t : String),
       mkFilename a n t = a ++ "_" ++ pad2 n ++ "_" ++ slugify t ++ ".md")
  ∧ (∀ n : Nat, n < 10 → pad2 n = "0" ++ toString n)
  ∧ (∀ n : Nat, 10 ≤ n → pad2 n = toString n)
  ∧ (∀ t : String,
       (slugify t).data.all (fun c => isWordChar c || c == '-') = true)
  ∧ (∀ t : String,
       (slugify t).data.Chain' (fun a b => ¬(a = '-' ∧ b = '-'))) := by
  refine ⟨?_, fun a n t => rfl, ?_, ?_, slugify_chars, slugify_no_adjacent_dashes⟩
  · intro s u d soup hnv hsome
    simp [processTask, hnv, hsome]
    rfl
  · intro n h
    simp [pad2, h]
  · intro n h
    simp [pad2, Nat.not_lt.mpr h]

/-- C8 witness: the amended naming theorem on the fixture home page — the
first write of the crawl is `a_com_00_Home.md`. -/
theorem C8_witness :
    (processTask fixCfg9 fixWorld9 "a_com" fixHome 0 initState).writes
      = [] ++ [(mkFilename "a_com" 0 (extract_title fixSoupHome),
          convert_to_markdown
            (extract_page_content fixCfg9
              (fetch_page fixCfg9 fixWorld9 [] [] fixHome).visited fixSoupHome
              fixHome)
            (some "a_com"))] :=
  (C8_filename_format fixCfg9 fixWorld9 "a_com").1 initState fixHome 0 fixSoupHome
    (by decide) (by rfl)

theorem dedupGo_keys (l : List Endpoint) :
    ∀ seen : List String,
      ((dedupGo seen l).map endpointKey).toFinset
        = (l.map endpointKey).toFinset \ seen.toFinset := by
  induction l with
  | nil => intro seen; simp [dedupGo]
  | cons e rest ih =>
    intro seen
    by_cases h : endpointKey e ∈ seen
    · rw [dedupGo, if_pos h, ih seen]
      simp only [List.map_cons, List.toFinset_cons]
      rw [Finset.insert_sdiff_of_mem _ (List.mem_toFinset.mpr h)]
    · rw [dedupGo, if_neg h]
      simp only [List.map_cons, List.toFinset_cons]
      rw [ih (endpointKey e :: seen)]
      ext x
      simp only [Finset.mem_insert, Finset.mem_sdiff, List.toFinset_cons,
        List.mem_toFinset, Finset.mem_insert]
      by_cases hx : x = endpointKey e
      · subst hx; tauto
      · tauto

theorem dedupGo_nodup (l : List Endpoint) :
    ∀ seen : List String,
      ((dedupGo seen l).map endpointKey).Nodup
    ∧ ∀ k ∈ (dedupGo seen l).map endpointKey, k ∉ seen := by
  induction l with
  | nil => intro seen; simp [dedupGo]
  | cons e rest ih =>
    intro seen
    by_cases h : endpointKey e ∈ seen
    · rw [dedupGo, if_pos h]; exact ih seen
    · rw [dedupGo, if_neg h]
      rcases ih (endpointKey e :: seen) with ⟨hnd, hns⟩
      refine ⟨?_, ?_⟩
      · simp only [List.map_cons, List.nodup_cons]
        exact ⟨fun hc => (hns _ hc) (List.mem_cons_self _ _), hnd⟩
      · intro k hk
        rcases List.mem_cons.mp hk with hk | hk
        · rw [hk]; exact h
        · exact fun hc => (hns k hk) (List.mem_cons_of_mem _ hc)

theorem dedupGo_length (l : List Endpoint) :
    (dedupGo [] l).length = ((l.map endpointKey).toFinset).card := by
  have h1 := (dedupGo_nodup l []).1
  have h2 := dedupGo_keys l []
  calc (dedupGo [] l).length
      = ((dedupGo [] l).map endpointKey).length := (List.length_map _ _).symm
    _ = ((dedupGo [] l).map endpointKey).toFinset.card :=
        (List.toFinset_card_of_nodup h1).symm
    _ = ((l.map endpointKey).toFinset \ (([] : List String)).toFinset).card := by
        rw [h2]
    _ = (l.map endpointKey).toFinset.card := by simp

theorem colon_append_inj :
    ∀ (a₁ b₁ a₂ b₂ : List Char), ':' ∉ a₁ → ':' ∉ a₂ →
      a₁ ++ ':' :: b₁ = a₂ ++ ':' :: b₂ → a₁ = a₂ ∧ b₁ = b₂ := by
  intro a₁
  induction a₁ with
  | nil =>
    intro b₁ a₂ b₂ _ h2 he
    cases a₂ with
    | nil => simpa using he
    | cons c a₂ =>
      simp only [List.nil_append, List.cons_append, List.cons.injEq] at he
      exact absurd (by rw [← he.1]; exact List.mem_cons_self _ _ :
        ':' ∈ c :: a₂) h2
  | cons c a₁ ih =>
    intro b₁ a₂ b₂ h1 h2 he
    cases a₂ with
    | nil =>
      simp only [List.cons_append, List.nil_append, List.cons.injEq] at he
      exact absurd (by rw [he.1]; exact List.mem_cons_self _ _ :
        ':' ∈ c :: a₁) h1
    | cons c₂ a₂ =>
      simp only [List.cons_append, List.cons.injEq] at he
      rcases ih b₁ a₂ b₂ (fun hm => h1 (List.mem_cons_of_mem _ hm))
        (fun hm => h2 (List.mem_cons_of_mem _ hm)) he.2 with ⟨hA, hB⟩
      exact ⟨by rw [he.1, hA], hB⟩

theorem matchToEndpoint_method (r : RawMatch) :
    ∃ m p, matchToEndpoint r = Endpoint.pat m p ∧ m ∈ "GET" :: httpVerbs := by
  cases r with
  | tup m p =>
    by_cases h : pyUpper m ∈ httpVerbs
    · exact ⟨pyUpper m, p, by simp [matchToEndpoint, h], List.mem_cons_of_mem _ h⟩
    · exact ⟨"GET", p, by simp [matchToEndpoint, h], List.mem_cons_self _ _⟩
  | single s => exact ⟨"GET", s, rfl, List.mem_cons_self _ _⟩

theorem verbs_colon_free : ∀ v ∈ ("GET" :: httpVerbs), ':' ∉ v.data := by
  decide

/-- C4 counterexample.  A qualifying table with two distinct data rows
produces two table endpoints whose *claimed* dedup keys (cell-joined
string as path) are distinct — the claim predicts both survive — but the
code's key for every table endpoint is `"GET:"` (its dictionary has no
`method`/`path` entries), so only the first survives deduplication. -/
theorem C4_counterexample :
    extract_api_endpoints
        { base_urls := [], output_dir := "docs" }
        { tables := [⟨["Method", "Path"],
            [["m", "p"], ["GET", "/a"], ["POST", "/b"]]⟩] }
      = [Endpoint.table ["GET", "/a"]]
  ∧ ((endpointCandidates
        { tables := [⟨["Method", "Path"],
            [["m", "p"], ["GET", "/a"], ["POST", "/b"]]⟩] }).map
        claimedKey).dedup.length = 2 := by
  refine ⟨by decide, by decide⟩

/-- C4 (amended): `extract_api_endpoints` deduplicates candidates by the
key `method:path` read from the endpoint dictionary with defaults
`('GET', '')` — the output length is the number of distinct keys among the
candidates; for pattern-derived candidates the key determines the
`(method, path)` pair (so k distinct pairs among n ≥ k raw matches give
exactly k endpoints), while every table-derived endpoint has the same key
`"GET:"` regardless of its cells, so at most one table endpoint
survives. -/
theorem C4_endpoint_dedup :
    (∀ (cfg : FetcherConfig) (soup : Soup),
       cfg.extract_api_endpoints = true →
       (extract_api_endpoints cfg soup).length
         = ((endpointCandidates soup).map endpointKey).toFinset.card)
  ∧ (∀ data : List String, endpointKey (Endpoint.table data) = "GET:")
  ∧ (∀ (soup : Soup) (m₁ p₁ m₂ p₂ : String),
       Endpoint.pat m₁ p₁ ∈ soup.endpointMatches.map matchToEndpoint →
       Endpoint.pat m₂ p₂ ∈ soup.endpointMatches.map matchToEndpoint →
       endpointKey (Endpoint.pat m₁ p₁) = endpointKey (Endpoint.pat m₂ p₂) →
       m₁ = m₂ ∧ p₁ = p₂) := by
  refine ⟨?_, fun data => rfl, ?_⟩
  · intro cfg soup h
    rw [extract_api_endpoints, h]
    simp only [Bool.not_true, Bool.false_eq_true, if_false]
    exact dedupGo_length _
  · intro soup m₁ p₁ m₂ p₂ h₁ h₂ hk
    have hv : ∀ (m p : String),
        Endpoint.pat m p ∈ soup.endpointMatches.map matchToEndpoint →
        ':' ∉ m.data := by
      intro m p hm
      rcases List.mem_map.mp hm with ⟨r, _, hr⟩
      rcases matchToEndpoint_method r with ⟨m', p', hr', hmem⟩
      rw [hr'] at hr
      cases hr
      exact verbs_colon_free _ hmem
    have hd : m₁.data ++ ':' :: p₁.data = m₂.data ++ ':' :: p₂.data := by
      have : (m₁ ++ ":" ++ p₁).data = (m₂ ++ ":" ++ p₂).data := by
        simpa [endpointKey] using congrArg String.data hk
      simpa using this
    rcases colon_append_inj _ _ _ _ (hv m₁ p₁ h₁) (hv m₂ p₂ h₂) hd with ⟨hA, hB⟩
    exact ⟨congrArg String.mk hA, congrArg String.mk hB⟩

/-- C4 witness: the count clause at a concrete candidate list — two raw
matches that agree on `(method, path)` after method normalization yield
one endpoint. -/
theorem C4_witness :
    (extract_api_endpoints { base_urls := [], output_dir := "docs" }
        { endpointMatches := [RawMatch.tup "get" "/a", RawMatch.tup "GET" "/a"] }).length
      = (((endpointCandidates
            { endpointMatches := [RawMatch.tup "get" "/a", RawMatch.tup "GET" "/a"] }).map
            endpointKey).toFinset).card :=
  C4_endpoint_dedup.1
    { base_urls := [], output_dir := "docs" }
    { endpointMatches := [RawMatch.tup "get" "/a", RawMatch.tup "GET" "/a"] }
    rfl

/-- C10: the filename's site label depends only on the base URL's host
(`www.` stripped, dots replaced), and the per-site counter restarts at 0
for every base URL; on the fixture config with two base URLs on the host
`www.example.com` whose pages share a title, the completed crawl performs
two writes to the *same* filename `example_com_00_Doc.md` — the second
(from the second base URL) silently overwriting the first — and the
created-files dictionary ends with a single entry. -/
theorem C10_filename_collision :
    (∀ b₁ b₂ : Url, b₁.netloc = b₂.netloc → apiNameOf b₁ = apiNameOf b₂)
  ∧ (crawl_documentation fixCfg10 fixWorld10 50).writes.map Prod.fst
      = ["example_com_00_Doc.md", "example_com_00_Doc.md"]
  ∧ (crawl_documentation fixCfg10 fixWorld10 50).created_files
      = [("example_com_00_Doc.md", "out/example_com_00_Doc.md")]
  ∧ (crawl_documentation fixCfg10 fixWorld10 50).queue = [] := by
  refine ⟨?_, by rfl, by rfl, by rfl⟩
  intro b₁ b₂ h
  rw [apiNameOf, apiNameOf, h]

/-- C10 witness: the two fixture base URLs share the site label. -/
theorem C10_witness : apiNameOf fixBase1 = apiNameOf fixBase2 :=
  C10_filename_collision.1 fixBase1 fixBase2 rfl
